import Mathlib

/-!
Verification of the task lifecycle and result-caching subsystem of the
PR-analysis service (`app/services/task_service.py`,
`app/services/cache_service.py`, `app/api/routes.py`,
`app/models/schemas.py`).

The Python code is shallowly embedded: the shared Redis key-value store
becomes an explicit `Store` value threaded through each operation, JSON
payloads become the inductive `JVal`, records written by the service become
Lean structures, and Python exceptions become `Except PyErr`.  State
mutations that happen before an exception is raised persist, so every
fallible operation returns its (possibly mutated) store alongside the
`Except` result, exactly as the real process leaves Redis mutated when a
handler raises.
-/

namespace PRAgent

/-- A JSON-representable Python value (what `json.loads` can produce and
`json.dumps` can consume).  Objects are insertion-ordered association
lists, matching Python `dict`. -/
inductive JVal : Type where
  | null : JVal
  | bool (b : Bool) : JVal
  | int (n : Int) : JVal
  | str (s : String) : JVal
  | arr (xs : List JVal) : JVal
  | obj (fields : List (String × JVal)) : JVal

/-- Python truthiness of a JSON-shaped value (`if x:`). -/
def JVal.truthy : JVal → Bool
  | .null => false
  | .bool b => b
  | .int n => n != 0
  | .str s => s ≠ ""
  | .arr xs => !xs.isEmpty
  | .obj fs => !fs.isEmpty

/-- Model of `d.get(k)` on a Python dict represented as an ordered field list. -/
def jget : List (String × JVal) → String → Option JVal
  | [], _ => none
  | (k', v) :: rest, k => if k' = k then some v else jget rest k

/-- Exception kinds raised by the embedded code. -/
inductive PyErr : Type where
  | attributeError
  | jsonDecodeError
  | valueError
  | validationError
  | connectionError
  deriving DecidableEq, Repr

/-- Python truthiness of an optional string (`if error_message:`):
`None` and the empty string are falsy. -/
def truthyOpt : Option String → Bool
  | none => false
  | some s => s ≠ ""

/-- Lookup in an association list with string keys (a read of one Redis
key, or a Python `dict` access). -/
def getAssoc {α : Type} : List (String × α) → String → Option α
  | [], _ => none
  | (k', v) :: rest, k => if k' = k then some v else getAssoc rest k

/-- Redis `SETEX` semantics on the modelled keyspace: overwrite the entry
when the key exists, append it otherwise. -/
def setAssoc {α : Type} : List (String × α) → String → α → List (String × α)
  | [], k, v => [(k, v)]
  | (k', v') :: rest, k, v =>
      if k' = k then (k, v) :: rest else (k', v') :: setAssoc rest k v

/-! ## Cache key derivation (`CacheService._generate_cache_key`) -/

/-- Model of `json.dumps(kwargs, sort_keys=True)` first canonicalizes the keyword
arguments by sorting them on the parameter name.  Python's sort is stable;
keyword-argument names are necessarily pairwise distinct. -/
def sortParams (kwargs : List (String × JVal)) : List (String × JVal) :=
  kwargs.insertionSort (fun a b => a.1 ≤ b.1)

mutual

/-- Rendering of one JSON value, as `json.dumps` does (string escaping is
irrelevant downstream because the rendering is immediately hashed). -/
def jsonRender : JVal → String
  | .null => "null"
  | .bool true => "true"
  | .bool false => "false"
  | .int n => toString n
  | .str s => "\x22" ++ s ++ "\x22"
  | .arr xs => "[" ++ jsonRenderArr xs ++ "]"
  | .obj fs => "\x7b" ++ jsonRenderObj fs ++ "\x7d"

/-- Comma-separated rendering of a JSON array's elements. -/
def jsonRenderArr : List JVal → String
  | [] => ""
  | [x] => jsonRender x
  | x :: y :: xs => jsonRender x ++ ", " ++ jsonRenderArr (y :: xs)

/-- Comma-separated rendering of a JSON object's fields. -/
def jsonRenderObj : List (String × JVal) → String
  | [] => ""
  | [(k, v)] => "\x22" ++ k ++ "\x22: " ++ jsonRender v
  | (k, v) :: f :: fs =>
      "\x22" ++ k ++ "\x22: " ++ jsonRender v ++ ", " ++ jsonRenderObj (f :: fs)

end

/-- Model of `json.dumps(kwargs, sort_keys=True)` on the keyword-argument dict. -/
def jsonDumpsSorted (kwargs : List (String × JVal)) : String :=
  jsonRender (.obj (sortParams kwargs))

/-- Model of `CacheService._generate_cache_key(prefix, **kwargs)`:
`param_string = json.dumps(kwargs, sort_keys=True)`;
`param_hash = hashlib.md5(param_string.encode()).hexdigest()`;
`return f"{prefix}:{param_hash}"`.  The MD5 hex digest is modelled as an
abstract function producing 32-character digests. -/
def generate_cache_key (md5hex : String → String) (ns : String)
    (kwargs : List (String × JVal)) : String :=
  ns ++ ":" ++ md5hex (jsonDumpsSorted kwargs)

/-- Model of `CacheService.get_pr_analysis_cache_key`. -/
def get_pr_analysis_cache_key (md5hex : String → String) (repo_url : String)
    (pr_number : Int) : String :=
  generate_cache_key md5hex "pr_analysis"
    [("repo_url", .str repo_url), ("pr_number", .int pr_number)]

/-- Model of `CacheService.get_pr_data_cache_key`. -/
def get_pr_data_cache_key (md5hex : String → String) (repo_url : String)
    (pr_number : Int) : String :=
  generate_cache_key md5hex "pr_data"
    [("repo_url", .str repo_url), ("pr_number", .int pr_number)]

/-! ### Canonicalization facts -/

theorem sortParams_perm_eq {P P' : List (String × JVal)} (hperm : P.Perm P')
    (hnodup : (P.map Prod.fst).Nodup) : sortParams P = sortParams P' := by
  have hs₁ := List.perm_insertionSort
    (fun a b : String × JVal => a.1 ≤ b.1) P
  have hs₂ := List.perm_insertionSort
    (fun a b : String × JVal => a.1 ≤ b.1) P'
  have hp : (sortParams P).Perm (sortParams P') :=
    (hs₁.trans hperm).trans hs₂.symm
  haveI : IsTotal (String × JVal) (fun a b => a.1 ≤ b.1) :=
    ⟨fun a b => le_total a.1 b.1⟩
  haveI : IsTrans (String × JVal) (fun a b => a.1 ≤ b.1) :=
    ⟨fun _ _ _ h h' => le_trans h h'⟩
  have hsort₁ : (sortParams P).Sorted (fun a b => a.1 ≤ b.1) :=
    List.sorted_insertionSort _ P
  have hsort₂ : (sortParams P').Sorted (fun a b => a.1 ≤ b.1) :=
    List.sorted_insertionSort _ P'
  have hnd₁ : ((sortParams P).map Prod.fst).Nodup :=
    ((hs₁.map Prod.fst).nodup_iff).2 hnodup
  have hnd₂ : ((sortParams P').map Prod.fst).Nodup :=
    ((hp.map Prod.fst).nodup_iff).1 hnd₁
  have hne₁ : (sortParams P).Pairwise (fun a b => a.1 ≠ b.1) :=
    List.pairwise_map.mp hnd₁
  have hne₂ : (sortParams P').Pairwise (fun a b => a.1 ≠ b.1) :=
    List.pairwise_map.mp hnd₂
  have hlt₁ : (sortParams P).Pairwise (fun a b => a.1 < b.1) :=
    (hsort₁.and hne₁).imp (fun h => lt_of_le_of_ne h.1 h.2)
  have hlt₂ : (sortParams P').Pairwise (fun a b => a.1 < b.1) :=
    (hsort₂.and hne₂).imp (fun h => lt_of_le_of_ne h.1 h.2)
  haveI : IsAntisymm (String × JVal) (fun a b => a.1 < b.1) :=
    ⟨fun _ _ h h' => absurd h' (lt_asymm h)⟩
  exact List.eq_of_perm_of_sorted hp hlt₁ hlt₂

theorem prefix_colon_digest_ne {p₁ p₂ h₁ h₂ : String}
    (hl₁ : h₁.length = 32) (hl₂ : h₂.length = 32) (hne : p₁ ≠ p₂) :
    p₁ ++ ":" ++ h₁ ≠ p₂ ++ ":" ++ h₂ := by
  intro heq
  have hdata : (p₁.data ++ (":" : String).data) ++ h₁.data
      = (p₂.data ++ (":" : String).data) ++ h₂.data := by
    have := congrArg String.data heq
    simpa [String.data_append] using this
  have hlen : h₁.data.length = h₂.data.length := by
    have e₁ : h₁.data.length = h₁.length := rfl
    have e₂ : h₂.data.length = h₂.length := rfl
    rw [e₁, e₂, hl₁, hl₂]
  have houter := List.append_inj' hdata hlen
  have hinner := List.append_inj' houter.1 rfl
  exact hne (String.ext hinner.1)

/-- C4 — cache keys are order-independent in their parameters and distinct
namespaces can never collide. -/
theorem cache_key_deterministic_and_namespaced
    (md5hex : String → String) (hlen : ∀ s, (md5hex s).length = 32)
    (ns ns₁ ns₂ : String) (P P' Q Q' : List (String × JVal))
    (hperm : P.Perm P') (hnodup : (P.map Prod.fst).Nodup) (hns : ns₁ ≠ ns₂) :
    generate_cache_key md5hex ns P = generate_cache_key md5hex ns P' ∧
    generate_cache_key md5hex ns₁ Q ≠ generate_cache_key md5hex ns₂ Q' := by
  constructor
  · unfold generate_cache_key jsonDumpsSorted
    rw [sortParams_perm_eq hperm hnodup]
  · exact prefix_colon_digest_ne (hlen _) (hlen _) hns

/-- A stand-in 32-hex-character digest function used to instantiate the
abstract MD5 parameter on concrete inputs. -/
def md5c : String → String := fun _ => "0123456789abcdef0123456789abcdef"

theorem md5c_len : ∀ s, (md5c s).length = 32 := fun _ => rfl

/-- Witness for C4 at the concrete parameter sets used by the PR-analysis
cache, in both call-site orders. -/
theorem cache_key_deterministic_and_namespaced_witness :
    generate_cache_key md5c "pr_analysis"
        [("repo_url", .str "https://github.com/a/b"), ("pr_number", .int 7)]
      = generate_cache_key md5c "pr_analysis"
        [("pr_number", .int 7), ("repo_url", .str "https://github.com/a/b")] ∧
    generate_cache_key md5c "pr_analysis"
        [("repo_url", .str "https://github.com/a/b"), ("pr_number", .int 7)]
      ≠ generate_cache_key md5c "pr_data"
        [("repo_url", .str "https://github.com/a/b"), ("pr_number", .int 7)] :=
  cache_key_deterministic_and_namespaced md5c md5c_len
    "pr_analysis" "pr_analysis" "pr_data"
    [("repo_url", .str "https://github.com/a/b"), ("pr_number", .int 7)]
    [("pr_number", .int 7), ("repo_url", .str "https://github.com/a/b")]
    [("repo_url", .str "https://github.com/a/b"), ("pr_number", .int 7)]
    [("repo_url", .str "https://github.com/a/b"), ("pr_number", .int 7)]
    (List.Perm.swap _ _ _) (by decide) (by decide)

/-! ## Schemas (`app/models/schemas.py`) -/

/-- Model of `TaskStatus` enumeration. -/
inductive TaskStatus : Type where
  | pending
  | processing
  | completed
  | failed
  | cancelled
  deriving DecidableEq, Repr

/-- Model of `TaskStatus.value` — the string stored in Redis. -/
def TaskStatus.value : TaskStatus → String
  | .pending => "pending"
  | .processing => "processing"
  | .completed => "completed"
  | .failed => "failed"
  | .cancelled => "cancelled"

/-- Model of `TaskStatus(s)` — coercion from a string; `none` models the
`ValueError` raised on an unknown status string. -/
def TaskStatus.ofString (s : String) : Option TaskStatus :=
  if s = "pending" then some .pending
  else if s = "processing" then some .processing
  else if s = "completed" then some .completed
  else if s = "failed" then some .failed
  else if s = "cancelled" then some .cancelled
  else none

theorem taskStatus_ofString_value (t : TaskStatus) :
    TaskStatus.ofString t.value = some t := by
  cases t <;> rfl

/-- Model of `IssueType` enumeration. -/
inductive IssueType : Type where
  | style
  | bug
  | performance
  | security
  | best_practice
  deriving DecidableEq, Repr

def IssueType.value : IssueType → String
  | .style => "style"
  | .bug => "bug"
  | .performance => "performance"
  | .security => "security"
  | .best_practice => "best_practice"

def IssueType.ofString (s : String) : Option IssueType :=
  if s = "style" then some .style
  else if s = "bug" then some .bug
  else if s = "performance" then some .performance
  else if s = "security" then some .security
  else if s = "best_practice" then some .best_practice
  else none

theorem issueType_ofString_value (t : IssueType) :
    IssueType.ofString t.value = some t := by
  cases t <;> rfl

/-- Model of `CodeIssue` model. -/
structure CodeIssue : Type where
  type : IssueType
  line : Int
  description : String
  suggestion : String
  severity : Option String
  deriving DecidableEq, Repr

/-- Model of `FileAnalysis` model. -/
structure FileAnalysis : Type where
  name : String
  path : String
  issues : List CodeIssue
  language : Option String
  deriving DecidableEq, Repr

/-- Model of `AnalysisSummary` model. -/
structure AnalysisSummary : Type where
  total_files : Int
  total_issues : Int
  critical_issues : Int
  files_with_issues : Int
  languages_detected : List String
  deriving DecidableEq, Repr

/-- Model of `AnalysisResults` model.  `metadata: Optional[Dict[str, Any]]` is a
JSON-shaped dict. -/
structure AnalysisResults : Type where
  files : List FileAnalysis
  summary : AnalysisSummary
  metadata : Option (List (String × JVal))

/-! ### `model_dump` — serialization of the pydantic models to JSON -/

def encodeOptStr : Option String → JVal
  | none => .null
  | some s => .str s

def CodeIssue.dump (i : CodeIssue) : JVal :=
  .obj [("type", .str i.type.value), ("line", .int i.line),
        ("description", .str i.description),
        ("suggestion", .str i.suggestion),
        ("severity", encodeOptStr i.severity)]

def FileAnalysis.dump (f : FileAnalysis) : JVal :=
  .obj [("name", .str f.name), ("path", .str f.path),
        ("issues", .arr (f.issues.map CodeIssue.dump)),
        ("language", encodeOptStr f.language)]

def AnalysisSummary.dump (s : AnalysisSummary) : JVal :=
  .obj [("total_files", .int s.total_files),
        ("total_issues", .int s.total_issues),
        ("critical_issues", .int s.critical_issues),
        ("files_with_issues", .int s.files_with_issues),
        ("languages_detected", .arr (s.languages_detected.map JVal.str))]

def encodeMeta : Option (List (String × JVal)) → JVal
  | none => .null
  | some fs => .obj fs

/-- Model of `results.model_dump()` — the dict `json.dumps` serializes into the
`results:<taskId>` slot. -/
def AnalysisResults.dump (r : AnalysisResults) : JVal :=
  .obj [("files", .arr (r.files.map FileAnalysis.dump)),
        ("summary", r.summary.dump),
        ("metadata", encodeMeta r.metadata)]

/-! ### Pydantic validation — `AnalysisResults(**results_dict)` -/

def decodeStr : JVal → Option String
  | .str s => some s
  | _ => none

def decodeOptStr : JVal → Option (Option String)
  | .null => some none
  | .str s => some (some s)
  | _ => none

def decodeInt : JVal → Option Int
  | .int n => some n
  | _ => none

def decodeMeta : JVal → Option (Option (List (String × JVal)))
  | .null => some none
  | .obj fs => some (some fs)
  | _ => none

/-- Element-wise validation of a JSON list, failing if any element fails
(pydantic validates `List[...]` fields this way). -/
def mapOpt {A B : Type} (f : A → Option B) : List A → Option (List B)
  | [] => some []
  | x :: xs => do
      let y ← f x
      let ys ← mapOpt f xs
      some (y :: ys)

/-- Validation of one `CodeIssue` (field types plus the `gt=0` bound on
`line`). -/
def CodeIssue.validate (v : JVal) : Option CodeIssue :=
  match v with
  | .obj fs => do
      let tys ← (jget fs "type").bind decodeStr
      let ty ← IssueType.ofString tys
      let line ← (jget fs "line").bind decodeInt
      if 0 < line then
        let de ← (jget fs "description").bind decodeStr
        let su ← (jget fs "suggestion").bind decodeStr
        let sev ← match jget fs "severity" with
          | none => some none
          | some sv => decodeOptStr sv
        some ⟨ty, line, de, su, sev⟩
      else none
  | _ => none

/-- Validation of one `FileAnalysis` (`issues` defaults to `[]`,
`language` to `None`). -/
def FileAnalysis.validate (v : JVal) : Option FileAnalysis :=
  match v with
  | .obj fs => do
      let na ← (jget fs "name").bind decodeStr
      let pa ← (jget fs "path").bind decodeStr
      let is ← match jget fs "issues" with
        | none => some []
        | some (.arr xs) => mapOpt CodeIssue.validate xs
        | some _ => none
      let la ← match jget fs "language" with
        | none => some none
        | some lv => decodeOptStr lv
      some ⟨na, pa, is, la⟩
  | _ => none

/-- Validation of the `AnalysisSummary` (all counters carry `ge=0`). -/
def AnalysisSummary.validate (v : JVal) : Option AnalysisSummary :=
  match v with
  | .obj fs => do
      let tf ← (jget fs "total_files").bind decodeInt
      let ti ← (jget fs "total_issues").bind decodeInt
      let ci ← (jget fs "critical_issues").bind decodeInt
      let fw ← (jget fs "files_with_issues").bind decodeInt
      if 0 ≤ tf ∧ 0 ≤ ti ∧ 0 ≤ ci ∧ 0 ≤ fw then
        let ld ← match jget fs "languages_detected" with
          | none => some []
          | some (.arr xs) => mapOpt decodeStr xs
          | some _ => none
        some ⟨tf, ti, ci, fw, ld⟩
      else none
  | _ => none

/-- Model of `AnalysisResults(**results_dict)`: `none` models the pydantic
`ValidationError`. -/
def AnalysisResults.validate (v : JVal) : Option AnalysisResults :=
  match v with
  | .obj fs => do
      let fi ← match jget fs "files" with
        | none => some []
        | some (.arr xs) => mapOpt FileAnalysis.validate xs
        | some _ => none
      let su ← (jget fs "summary").bind AnalysisSummary.validate
      let me ← match jget fs "metadata" with
        | none => some none
        | some mv => decodeMeta mv
      some ⟨fi, su, me⟩
  | _ => none

/-! ### Round-trip of serialization and validation -/

/-- The value constraints pydantic enforced when the model instance was
first built (`gt=0` on issue lines, `ge=0` on summary counters). -/
def CodeIssue.Valid (i : CodeIssue) : Prop := 0 < i.line

def AnalysisSummary.Valid (s : AnalysisSummary) : Prop :=
  0 ≤ s.total_files ∧ 0 ≤ s.total_issues ∧ 0 ≤ s.critical_issues ∧
    0 ≤ s.files_with_issues

def AnalysisResults.Valid (r : AnalysisResults) : Prop :=
  (∀ f ∈ r.files, ∀ i ∈ f.issues, i.Valid) ∧ r.summary.Valid

instance (i : CodeIssue) : Decidable i.Valid := by
  unfold CodeIssue.Valid; infer_instance

instance (s : AnalysisSummary) : Decidable s.Valid := by
  unfold AnalysisSummary.Valid; infer_instance

instance (r : AnalysisResults) : Decidable r.Valid := by
  unfold AnalysisResults.Valid CodeIssue.Valid; infer_instance

theorem mapOpt_of_forall {A B : Type} (f : B → Option A) (g : A → B)
    (l : List A) (h : ∀ x ∈ l, f (g x) = some x) :
    mapOpt f (l.map g) = some l := by
  induction l with
  | nil => rfl
  | cons x xs ih =>
      have hx := h x (by simp)
      have hxs := ih (fun y hy => h y (by simp [hy]))
      simp [mapOpt, hx, hxs]

theorem decodeOptStr_encode (o : Option String) :
    decodeOptStr (encodeOptStr o) = some o := by
  cases o <;> rfl

theorem codeIssue_validate_dump (i : CodeIssue) (hv : i.Valid) :
    CodeIssue.validate i.dump = some i := by
  obtain ⟨ty, line, de, su, sev⟩ := i
  simp only [CodeIssue.Valid] at hv
  simp [CodeIssue.validate, CodeIssue.dump, jget, issueType_ofString_value,
    decodeStr, decodeInt, decodeOptStr_encode, hv]

theorem fileAnalysis_validate_dump (f : FileAnalysis)
    (hv : ∀ i ∈ f.issues, i.Valid) :
    FileAnalysis.validate f.dump = some f := by
  have hlist : mapOpt CodeIssue.validate (f.issues.map CodeIssue.dump)
      = some f.issues :=
    mapOpt_of_forall _ _ _ (fun i hi => codeIssue_validate_dump i (hv i hi))
  obtain ⟨na, pa, is, la⟩ := f
  simp [FileAnalysis.validate, FileAnalysis.dump, jget, decodeStr,
    decodeOptStr_encode] at hlist ⊢
  simp [hlist]

theorem analysisSummary_validate_dump (s : AnalysisSummary) (hv : s.Valid) :
    AnalysisSummary.validate s.dump = some s := by
  have hlist : mapOpt decodeStr (s.languages_detected.map JVal.str)
      = some s.languages_detected :=
    mapOpt_of_forall _ _ _ (fun x _ => rfl)
  obtain ⟨tf, ti, ci, fw, ld⟩ := s
  obtain ⟨h1, h2, h3, h4⟩ := hv
  simp only at h1 h2 h3 h4
  simp only at hlist
  simp [AnalysisSummary.validate, AnalysisSummary.dump, jget, decodeInt,
    h1, h2, h3, h4, hlist]

theorem decodeMeta_encode (m : Option (List (String × JVal))) :
    decodeMeta (encodeMeta m) = some m := by
  cases m <;> rfl

/-- Serializing an `AnalysisResults` built by the worker and validating the
parsed JSON reproduces the original model. -/
theorem analysisResults_validate_dump (r : AnalysisResults) (hv : r.Valid) :
    AnalysisResults.validate r.dump = some r := by
  obtain ⟨hfi, hsu⟩ := hv
  have hlist : mapOpt FileAnalysis.validate (r.files.map FileAnalysis.dump)
      = some r.files :=
    mapOpt_of_forall _ _ _
      (fun f hf => fileAnalysis_validate_dump f (fun i hi => hfi f hf i hi))
  have hs : AnalysisSummary.validate r.summary.dump = some r.summary :=
    analysisSummary_validate_dump r.summary hsu
  obtain ⟨fi, su, me⟩ := r
  simp only at hlist hs
  simp [AnalysisResults.validate, AnalysisResults.dump, jget, hlist, hs,
    decodeMeta_encode]

/-! ## The shared Redis keyspace

One `Store` value models the key-value store.  The three key families the
code uses (`task:<id>`, `results:<id>`, cache keys) never collide, so they
are kept as separate association lists; the task and result lists are
keyed by the task id. -/

/-- A decoded `task:<id>` record, carrying exactly the fields
`TaskService.create_task` / `update_task_status` write.  `bad` models a
value `json.loads` rejects. -/
structure TaskData : Type where
  task_id : String
  status : String
  repo_url : String
  pr_number : Int
  github_token : Option String
  created_at : String
  updated_at : String
  completed_at : Option String
  error_message : Option String
  deriving DecidableEq, Repr

inductive StoredTask : Type where
  | good (t : TaskData)
  | bad
  deriving DecidableEq, Repr

/-- A `results:<id>` slot: the serialized `model_dump` JSON plus the TTL it
was written with. -/
structure ResultSlot : Type where
  value : JVal
  ttl : Nat

/-- A cache slot: a JSON value plus its TTL, or bytes `json.loads`
rejects. -/
inductive CacheSlot : Type where
  | val (v : JVal) (ttl : Nat)
  | corrupt

structure Store : Type where
  tasks : List (String × StoredTask)
  results : List (String × ResultSlot)
  cache : List (String × CacheSlot)

def emptyStore : Store := ⟨[], [], []⟩

/-! ## Cache service (`app/services/cache_service.py`) -/

/-- The body of `CacheService.set_cache`'s `try` block: compute the
effective TTL (`ttl or self.default_ttl`; Python treats `0` as falsy),
serialize, `SETEX`.  `fault` injects a failure of the underlying Redis
write (connection error etc.). -/
def set_cache_attempt (fault : Option PyErr) (s : Store) (key : String)
    (value : JVal) (ttl : Option Nat) : Except PyErr (Store × Bool) :=
  let t := match ttl with
    | none => 3600
    | some t => if t = 0 then 3600 else t
  match fault with
  | some e => .error e
  | none => .ok ({ s with cache := setAssoc s.cache key (.val value t) }, true)

/-- Model of `CacheService.set_cache`: any exception is caught, logged and turned
into `False`. -/
def set_cache (fault : Option PyErr) (s : Store) (key : String)
    (value : JVal) (ttl : Option Nat) : Store × Bool :=
  match set_cache_attempt fault s key value ttl with
  | .ok r => r
  | .error _ => (s, false)

/-- The body of `CacheService.get_cache`'s `try` block: `GET` then
`json.loads`. -/
def get_cache_attempt (s : Store) (key : String) : Except PyErr (Option JVal) :=
  match getAssoc s.cache key with
  | none => .ok none
  | some (.val v _) => .ok (some v)
  | some .corrupt => .error .jsonDecodeError

/-- Model of `CacheService.get_cache`: any exception is caught, logged and turned
into `None` (fail-open). -/
def get_cache (s : Store) (key : String) : Option JVal :=
  match get_cache_attempt s key with
  | .ok r => r
  | .error _ => none

/-- Model of `CacheService.cache_pr_analysis_result`: wrap the result with cache
metadata and `set_cache` it under the PR-analysis key. -/
def cache_pr_analysis_result (md5hex : String → String) (fault : Option PyErr)
    (cached_at : String) (s : Store) (repo_url : String) (pr_number : Int)
    (result : JVal) (ttl : Option Nat) : Store × Bool :=
  let cache_key := get_pr_analysis_cache_key md5hex repo_url pr_number
  let cached_result : JVal :=
    .obj [("result", result), ("cached_at", .str cached_at),
          ("repo_url", .str repo_url), ("pr_number", .int pr_number)]
  set_cache fault s cache_key cached_result ttl

/-- Model of `CacheService.get_cached_pr_analysis_result`: read the PR-analysis
slot; when the payload is truthy return its `"result"` field.  The
`.get` call on a non-dict payload raises `AttributeError`. -/
def get_cached_pr_analysis_result (md5hex : String → String) (s : Store)
    (repo_url : String) (pr_number : Int) : Except PyErr (Option JVal) :=
  let cache_key := get_pr_analysis_cache_key md5hex repo_url pr_number
  match get_cache s cache_key with
  | none => .ok none
  | some cached_data =>
      if cached_data.truthy then
        match cached_data with
        | .obj fs => .ok (jget fs "result")
        | _ => .error .attributeError
      else .ok none

/-! ## Task service (`app/services/task_service.py`) -/

/-- Model of `TaskService.check_cached_result`: delegates to the cache layer; any
exception yields `None`; a falsy payload yields `None`. -/
def check_cached_result (md5hex : String → String) (s : Store)
    (repo_url : String) (pr_number : Int) : Option JVal :=
  match get_cached_pr_analysis_result md5hex s repo_url pr_number with
  | .error _ => none
  | .ok none => none
  | .ok (some v) => if v.truthy then some v else none

/-- Model of `TaskService._calculate_progress`. -/
def calculate_progress (status : String) : Nat :=
  if status = "pending" then 0
  else if status = "processing" then 50
  else if status = "completed" then 100
  else if status = "failed" then 0
  else if status = "cancelled" then 0
  else 0

/-- Model of `TaskService._get_status_message`. -/
def get_status_message (status : String) : String :=
  if status = "pending" then "Task is queued for processing"
  else if status = "processing" then "Analyzing pull request..."
  else if status = "completed" then "Analysis completed successfully"
  else if status = "failed" then "Analysis failed"
  else if status = "cancelled" then "Task was cancelled"
  else "Unknown status"

/-- Model of `TaskStatusResponse` (`app/models/schemas.py` lines 77-83). -/
structure TaskStatusResponse : Type where
  task_id : String
  status : TaskStatus
  progress : Nat
  message : String
  created_at : Option String
  deriving DecidableEq, Repr

/-- The attribute names a `TaskStatusResponse` instance actually exposes:
exactly its declared fields.  `hasattr` on anything else is `False`. -/
def taskStatusResponseFields : List String :=
  ["task_id", "status", "progress", "message", "created_at"]

def hasattrTaskStatusResponse (attr : String) : Bool :=
  taskStatusResponseFields.contains attr

/-- Model of `TaskService.get_task_status`: absent key → `None`; undecodable record
→ uncaught `JSONDecodeError`; unknown status string → uncaught
`ValueError` from `TaskStatus(...)`. -/
def get_task_status (s : Store) (task_id : String) :
    Except PyErr (Option TaskStatusResponse) :=
  match getAssoc s.tasks task_id with
  | none => .ok none
  | some .bad => .error .jsonDecodeError
  | some (.good t) =>
      match TaskStatus.ofString t.status with
      | none => .error .valueError
      | some st =>
          .ok (some ⟨task_id, st, calculate_progress t.status,
            get_status_message t.status, some t.created_at⟩)

/-- Model of `TaskService.update_task_status`: missing or undecodable record →
log and return (no write); otherwise rewrite the record with the new
status, a fresh `updated_at`, `completed_at` stamped only on a transition
to `completed`, and `error_message` stored only when a truthy message is
supplied. -/
def update_task_status (now : String) (s : Store) (task_id : String)
    (status : TaskStatus) (error_message : Option String) : Store :=
  match getAssoc s.tasks task_id with
  | none => s
  | some .bad => s
  | some (.good t) =>
      let t₁ := { t with status := status.value, updated_at := now }
      let t₂ := if status = TaskStatus.completed
        then { t₁ with completed_at := some now } else t₁
      let t₃ := if truthyOpt error_message
        then { t₂ with error_message := error_message } else t₂
      { s with tasks := setAssoc s.tasks task_id (.good t₃) }

/-- The argument passed to `store_task_results`: either a real
`AnalysisResults` pydantic instance (the worker's call) or a plain decoded
JSON dict (what the cache-hit path of `create_task` passes). -/
inductive ResultsArg : Type where
  | model (r : AnalysisResults)
  | pyDict (v : JVal)

/-- Model of `TaskService.store_task_results`.  On a plain dict the very first
statement (`len(results.files)` in the entry log call) raises
`AttributeError`, before anything is written; the `except` clause re-raises
whatever escapes the `try` block.  The cache branch is guarded by
`hasattr(task_data, 'repo_url')` on a `TaskStatusResponse`. -/
def store_task_results (md5hex : String → String) (now : String) (s : Store)
    (task_id : String) (results : ResultsArg) : Store × Except PyErr Unit :=
  match results with
  | .pyDict _ => (s, .error .attributeError)
  | .model r =>
      let results_dict := r.dump
      let s₁ : Store :=
        { s with results := setAssoc s.results task_id ⟨results_dict, 86400⟩ }
      match get_task_status s₁ task_id with
      | .error e => (s₁, .error e)
      | .ok task_data =>
          if task_data.isSome && hasattrTaskStatusResponse "repo_url"
              && hasattrTaskStatusResponse "pr_number" then
            match getAssoc s₁.tasks task_id with
            | none => (s₁, .ok ())
            | some .bad => (s₁, .error .jsonDecodeError)
            | some (.good info) =>
                if info.repo_url ≠ "" ∧ info.pr_number ≠ 0 then
                  let c := cache_pr_analysis_result md5hex none now s₁
                    info.repo_url info.pr_number results_dict (some 3600)
                  (c.1, .ok ())
                else (s₁, .ok ())
          else (s₁, .ok ())

/-- Model of `TaskService.create_task`: consult the analysis cache; on a hit,
persist an immediately-`completed` task record, store the cached payload
via `store_task_results`, and hand the payload back; on a miss, persist a
`pending` record and return `None`. -/
def create_task (md5hex : String → String) (now : String) (s : Store)
    (task_id repo_url : String) (pr_number : Int)
    (github_token : Option String) : Store × Except PyErr (Option JVal) :=
  match check_cached_result md5hex s repo_url pr_number with
  | some cached_result =>
      let task_data : TaskData :=
        { task_id := task_id, status := TaskStatus.completed.value,
          repo_url := repo_url, pr_number := pr_number,
          github_token := github_token, created_at := now,
          updated_at := now, completed_at := some now,
          error_message := none }
      let s₁ : Store :=
        { s with tasks := setAssoc s.tasks task_id (.good task_data) }
      match store_task_results md5hex now s₁ task_id (.pyDict cached_result) with
      | (s₂, .error e) => (s₂, .error e)
      | (s₂, .ok _) => (s₂, .ok (some cached_result))
  | none =>
      let task_data : TaskData :=
        { task_id := task_id, status := TaskStatus.pending.value,
          repo_url := repo_url, pr_number := pr_number,
          github_token := github_token, created_at := now,
          updated_at := now, completed_at := none, error_message := none }
      ({ s with tasks := setAssoc s.tasks task_id (.good task_data) },
        .ok none)

/-- Model of `TaskResponse` (`app/models/schemas.py` lines 67-74). -/
structure TaskResponse : Type where
  task_id : String
  status : TaskStatus
  results : Option AnalysisResults
  error_message : Option String
  created_at : Option String
  completed_at : Option String

/-- Model of `TaskService.get_task_results`: absent → `None`; the Result Record is
read and validated only when the task's status is `completed`; a record
that fails pydantic validation raises. -/
def get_task_results (s : Store) (task_id : String) :
    Except PyErr (Option TaskResponse) :=
  match getAssoc s.tasks task_id with
  | none => .ok none
  | some .bad => .error .jsonDecodeError
  | some (.good t) =>
      let resE : Except PyErr (Option AnalysisResults) :=
        if t.status = TaskStatus.completed.value then
          match getAssoc s.results task_id with
          | none => .ok none
          | some slot =>
              match AnalysisResults.validate slot.value with
              | none => .error .validationError
              | some r => .ok (some r)
        else .ok none
      match resE with
      | .error e => .error e
      | .ok results =>
          match TaskStatus.ofString t.status with
          | none => .error .valueError
          | some st =>
              .ok (some ⟨task_id, st, results, t.error_message,
                some t.created_at, t.completed_at⟩)

/-- Model of `TaskService.get_task_data`: raw record as a dict; both a missing key
and an undecodable record yield `None`. -/
def get_task_data (s : Store) (task_id : String) : Option TaskData :=
  match getAssoc s.tasks task_id with
  | none => none
  | some .bad => none
  | some (.good t) => some t


/-- Python compares strings lexicographically by code point.  (Defined
explicitly on the character lists so the comparison reduces inside the
kernel; `String.ltb` does not.) -/
def pyStrLtL : List Char → List Char → Bool
  | [], [] => false
  | [], _ :: _ => true
  | _ :: _, [] => false
  | a :: as, b :: bs =>
      if a.toNat < b.toNat then true
      else if b.toNat < a.toNat then false
      else pyStrLtL as bs

def pyStrLt (a b : String) : Bool := pyStrLtL a.data b.data

/-- Model of `a <= b` on Python strings (total order: `not (b < a)`). -/
def pyStrLe (a b : String) : Bool := !pyStrLt b a

/-- The synthesized error message for a reclaimed stuck task
(`f"Task stuck in processing for more than {max_age_hours} hours"`). -/
def stuckMessage (max_age_hours : Nat) : String :=
  "Task stuck in processing for more than " ++ toString max_age_hours
    ++ " hours"

/-- Identifying details of one cleaned task. -/
structure StuckInfo : Type where
  task_id : String
  created_at : String
  repo_url : String
  pr_number : Int
  deriving DecidableEq, Repr

structure CleanupResult : Type where
  checked_count : Nat
  cleaned_count : Nat
  max_age_hours : Nat
  cutoff_time : String
  stuck_tasks : List StuckInfo
  deriving DecidableEq, Repr

/-- The scan loop of `TaskService.cleanup_stuck_tasks`: the key list is a
snapshot (`redis_client.keys("task:*")`), each key's value is re-read from
the live (possibly already mutated) store, decodable records are counted
as checked, and a record in `processing` whose `created_at` string is
lexicographically below the cutoff ISO timestamp is force-failed through
`update_task_status`. -/
def cleanupLoop (now cutoff msg : String) :
    List String → Store → Store × Nat × Nat × List StuckInfo
  | [], s => (s, 0, 0, [])
  | k :: ks, s =>
      match getAssoc s.tasks k with
      | none => cleanupLoop now cutoff msg ks s
      | some .bad => cleanupLoop now cutoff msg ks s
      | some (.good t) =>
          if t.status = "processing" ∧ pyStrLt t.created_at cutoff = true then
            let s' := update_task_status now s k .failed (some msg)
            let r := cleanupLoop now cutoff msg ks s'
            (r.1, r.2.1 + 1, r.2.2.1 + 1,
              ⟨k, t.created_at, t.repo_url, t.pr_number⟩ :: r.2.2.2)
          else
            let r := cleanupLoop now cutoff msg ks s
            (r.1, r.2.1 + 1, r.2.2.1, r.2.2.2)

/-- Model of `TaskService.cleanup_stuck_tasks`.  `cutoff_iso` stands for
`(datetime.now() - timedelta(hours=max_age_hours)).isoformat()`; the code
compares `created_at` against it as strings. -/
def cleanup_stuck_tasks (now cutoff_iso : String) (max_age_hours : Nat)
    (s : Store) : Store × CleanupResult :=
  let r := cleanupLoop now cutoff_iso (stuckMessage max_age_hours)
    (s.tasks.map Prod.fst) s
  (r.1, ⟨r.2.1, r.2.2.1, max_age_hours, cutoff_iso, r.2.2.2⟩)

/-- The per-record filter of `TaskService.list_tasks`: skip undecodable
records; skip records not matching a truthy status filter; stamp the key's
task id into the returned dict. -/
def keepTask (status_filter : Option String) (k : String) (v : StoredTask) :
    Option TaskData :=
  match v with
  | .bad => none
  | .good t =>
      if truthyOpt status_filter ∧ some t.status ≠ status_filter then none
      else some { t with task_id := k }

/-- Model of `TaskService.list_tasks`: scan, filter, sort by `created_at` newest
first (Python's stable sort with `reverse=True`), truncate to `limit`. -/
def list_tasks (s : Store) (status_filter : Option String) (limit : Nat) :
    List TaskData :=
  let collected := s.tasks.filterMap (fun p => keepTask status_filter p.1 p.2)
  let sorted := collected.insertionSort
    (fun a b => pyStrLe b.created_at a.created_at = true)
  sorted.take limit

/-! ## API routes (`app/api/routes.py`) -/

/-- Observable outcome of `DELETE /cancel/{task_id}`. -/
inductive CancelOutcome : Type where
  | ok
  | notFound
  | notCancellable
  | serverError
  deriving DecidableEq, Repr

/-- The `cancel_task` route handler: 404 when the task is unknown, 400
when it is already terminal, otherwise mark it `cancelled`; any other
exception maps to a 500. -/
def cancel_task (now : String) (s : Store) (task_id : String) :
    Store × CancelOutcome :=
  match get_task_status s task_id with
  | .error _ => (s, .serverError)
  | .ok none => (s, .notFound)
  | .ok (some st) =>
      if st.status = TaskStatus.completed ∨ st.status = TaskStatus.failed
          ∨ st.status = TaskStatus.cancelled then
        (s, .notCancellable)
      else
        (update_task_status now s task_id .cancelled
          (some "Task cancelled by user request"), .ok)

/-- Observable outcome of `POST /retrigger/{task_id}`. -/
inductive RetriggerOutcome : Type where
  | ok (new_task_id : String)
  | notFound
  | alreadyCompleted
  | serverError
  deriving DecidableEq, Repr

/-- The `retrigger_task` route handler: clone the original task's
parameters into a fresh task, then mark the original `cancelled` with a
back-reference; 404 when unknown, 400 when already `completed`. -/
def retrigger_task (md5hex : String → String) (now new_task_id : String)
    (s : Store) (task_id : String) : Store × RetriggerOutcome :=
  match get_task_data s task_id with
  | none => (s, .notFound)
  | some orig =>
      if orig.status = "completed" then (s, .alreadyCompleted)
      else
        match create_task md5hex now s new_task_id orig.repo_url
            orig.pr_number orig.github_token with
        | (s₁, .error _) => (s₁, .serverError)
        | (s₁, .ok _) =>
            (update_task_status now s₁ task_id .cancelled
              (some ("Retriggered as task " ++ new_task_id)),
              .ok new_task_id)

/-- Model of `status_counts[s] = status_counts.get(s, 0) + 1` on an
insertion-ordered dict. -/
def incrCount : List (String × Nat) → String → List (String × Nat)
  | [], k => [(k, 1)]
  | (k', n) :: rest, k =>
      if k' = k then (k, n + 1) :: rest else (k', n) :: incrCount rest k

/-- The summary-statistics loop of the `GET /tasks` handler, run over the
tasks returned by `TaskService.list_tasks`. -/
def status_counts_of (tasks : List TaskData) : List (String × Nat) :=
  tasks.foldl (fun m t => incrCount m t.status) []

/-- Response body of `GET /tasks`. -/
structure ListTasksResponse : Type where
  tasks : List TaskData
  total : Nat
  status_filter : Option String
  status_counts : List (String × Nat)
  limit : Nat

/-- The `list_tasks` route handler. -/
def list_tasks_endpoint (s : Store) (status : Option String) (limit : Nat) :
    ListTasksResponse :=
  let tasks := list_tasks s status limit
  { tasks := tasks, total := tasks.length, status_filter := status,
    status_counts := status_counts_of tasks, limit := limit }


/-! ## Association-list facts -/

theorem getAssoc_setAssoc_self {α : Type} (l : List (String × α))
    (k : String) (v : α) : getAssoc (setAssoc l k v) k = some v := by
  induction l with
  | nil => simp [setAssoc, getAssoc]
  | cons p rest ih =>
      by_cases h : p.1 = k
      · simp [setAssoc, getAssoc, h]
      · obtain ⟨k', v'⟩ := p
        simp only at h
        simp [setAssoc, getAssoc, h, ih]

theorem getAssoc_setAssoc_ne {α : Type} (l : List (String × α))
    (k k' : String) (v : α) (h : k' ≠ k) :
    getAssoc (setAssoc l k v) k' = getAssoc l k' := by
  induction l with
  | nil => simp [setAssoc, getAssoc, Ne.symm h]
  | cons p rest ih =>
      obtain ⟨k₀, v₀⟩ := p
      by_cases h₀ : k₀ = k
      · subst h₀
        simp [setAssoc, getAssoc, Ne.symm h]
      · by_cases h₁ : k₀ = k'
        · subst h₁
          simp [setAssoc, getAssoc, h₀]
        · simp [setAssoc, getAssoc, h₀, h₁, ih]

theorem mem_setAssoc {α : Type} {l : List (String × α)} {k : String} {v : α}
    {p : String × α} (hp : p ∈ setAssoc l k v) : p = (k, v) ∨ p ∈ l := by
  induction l with
  | nil => simpa [setAssoc] using hp
  | cons q rest ih =>
      obtain ⟨k₀, v₀⟩ := q
      by_cases h₀ : k₀ = k
      · subst h₀
        rcases (by simpa [setAssoc] using hp : p = (k₀, v) ∨ p ∈ rest) with
          h | h
        · exact Or.inl h
        · exact Or.inr (by simp [h])
      · rcases (by simpa [setAssoc, h₀] using hp :
            p = (k₀, v₀) ∨ p ∈ setAssoc rest k v) with h | h
        · exact Or.inr (by simp [h])
        · rcases ih h with h' | h'
          · exact Or.inl h'
          · exact Or.inr (by simp [h'])

theorem mem_of_getAssoc {α : Type} {l : List (String × α)} {k : String}
    {v : α} (h : getAssoc l k = some v) : (k, v) ∈ l := by
  induction l with
  | nil => simp [getAssoc] at h
  | cons q rest ih =>
      obtain ⟨k₀, v₀⟩ := q
      by_cases h₀ : k₀ = k
      · subst h₀
        simp [getAssoc] at h
        simp [h]
      · simp [getAssoc, h₀] at h
        exact List.mem_cons_of_mem _ (ih h)

/-- Characterization of `update_task_status` on a decodable record: the
record is rewritten with the requested status, a fresh `updated_at`,
`completed_at` stamped only on a `completed` transition, and
`error_message` replaced only by a truthy message. -/
theorem update_task_status_good (now : String) (s : Store) (task_id : String)
    (st : TaskStatus) (msg : Option String) (t : TaskData)
    (hlook : getAssoc s.tasks task_id = some (.good t)) :
    update_task_status now s task_id st msg
      = { s with tasks :=
              setAssoc s.tasks task_id (.good
                { t with
                  status := st.value,
                  updated_at := now,
                  completed_at :=
                    if st = TaskStatus.completed then some now
                    else t.completed_at,
                  error_message :=
                    if truthyOpt msg then msg else t.error_message }) } := by
  unfold update_task_status
  rw [hlook]
  by_cases h₁ : st = TaskStatus.completed <;>
    by_cases h₂ : truthyOpt msg = true <;> simp [h₁, h₂]

/-! ## C2 -/

/-- C2 — refuted by the code: `store_task_results` never touches the
PR-analysis cache, because its guard calls `hasattr` for `repo_url` /
`pr_number` on a `TaskStatusResponse`, which declares neither field; the
claimed cache write (and with it the 1-hour-TTL entry a later
`create_task` would find) is dead code on every input. -/
theorem store_task_results_never_caches (md5hex : String → String)
    (now : String) (s : Store) (task_id : String) (results : ResultsArg) :
    (store_task_results md5hex now s task_id results).1.cache = s.cache ∧
    hasattrTaskStatusResponse "repo_url" = false := by
  refine ⟨?_, by decide⟩
  unfold store_task_results
  cases results with
  | pyDict v => rfl
  | model r =>
      simp only [hasattrTaskStatusResponse, taskStatusResponseFields]
      cases get_task_status
          { s with results := setAssoc s.results task_id ⟨r.dump, 86400⟩ }
          task_id with
      | error e => rfl
      | ok task_data => simp [List.contains]

/-! ## C9 -/

/-- C9 — the cache layer fails soft: `set_cache` reports the underlying
write outcome as a boolean instead of raising (a healthy write stores the
value and returns `True`, an injected store failure returns `False` and
leaves the store untouched), and `get_cache` answers `none` both for a
missing key and for a slot whose bytes fail to deserialize. -/
theorem cache_set_get_fail_soft :
    (∀ s key value ttl, (set_cache none s key value ttl).2 = true) ∧
    (∀ e s key value ttl, set_cache (some e) s key value ttl = (s, false)) ∧
    (∀ s key, getAssoc s.cache key = none → get_cache s key = none) ∧
    (∀ s key v t, getAssoc s.cache key = some (.val v t) →
      get_cache s key = some v) ∧
    (∀ s key, getAssoc s.cache key = some .corrupt →
      get_cache s key = none) := by
  refine ⟨?_, ?_, ?_, ?_, ?_⟩
  · intro s key value ttl
    simp [set_cache, set_cache_attempt]
  · intro e s key value ttl
    simp [set_cache, set_cache_attempt]
  · intro s key h
    simp [get_cache, get_cache_attempt, h]
  · intro s key v t h
    simp [get_cache, get_cache_attempt, h]
  · intro s key h
    simp [get_cache, get_cache_attempt, h]

def c9Store : Store := ⟨[], [], [("k", .corrupt)]⟩

/-- Witness for C9 on a store holding one corrupt cache slot. -/
theorem cache_set_get_fail_soft_witness :
    get_cache c9Store "k" = none ∧
    set_cache (some .connectionError) c9Store "k" (.str "v") none
      = (c9Store, false) ∧
    (set_cache none c9Store "k" (.str "v") none).2 = true := by
  refine ⟨?_, ?_, ?_⟩
  · exact cache_set_get_fail_soft.2.2.2.2 c9Store "k" rfl
  · exact cache_set_get_fail_soft.2.1 .connectionError c9Store "k"
      (.str "v") none
  · exact cache_set_get_fail_soft.1 c9Store "k" (.str "v") none

/-! ## C3 -/

def c3Rec : TaskData :=
  { task_id := "t1", status := "completed", repo_url := "R", pr_number := 1,
    github_token := none, created_at := "T0", updated_at := "T0",
    completed_at := some "T0", error_message := none }

def c3Store : Store := ⟨[("t1", .good c3Rec)], [], []⟩

/-- C3 counterexample — a record already in the terminal state `completed`
is overwritten by a subsequent `update_task_status` call: its status
changes to `processing`. -/
theorem update_status_overwrites_terminal_cex :
    getAssoc c3Store.tasks "t1" = some (.good c3Rec) ∧
    c3Rec.status = "completed" ∧
    getAssoc (update_task_status "T1" c3Store "t1"
        TaskStatus.processing none).tasks "t1"
      = some (.good { c3Rec with status := "processing", updated_at := "T1" }) ∧
    ("processing" : String) ≠ "completed" :=
  ⟨rfl, rfl, rfl, by decide⟩

/-- C3 amended — `update_task_status` applies the requested transition
unconditionally, terminal or not: the stored record's status becomes the
requested one.  Terminal records are protected only at the API layer,
where the cancel handler rejects them with an invalid-state error and
leaves the store untouched. -/
theorem update_status_ignores_terminality
    (now : String) (s : Store) (task_id : String) (st : TaskStatus)
    (msg : Option String) (t : TaskData)
    (hlook : getAssoc s.tasks task_id = some (.good t))
    (hterm : t.status = "completed" ∨ t.status = "failed" ∨
      t.status = "cancelled") :
    (∃ t', getAssoc (update_task_status now s task_id st msg).tasks task_id
        = some (.good t') ∧ t'.status = st.value ∧ t'.updated_at = now) ∧
    cancel_task now s task_id = (s, .notCancellable) := by
  constructor
  · rw [update_task_status_good now s task_id st msg t hlook]
    refine ⟨{ t with
              status := st.value,
              updated_at := now,
              completed_at :=
                if st = TaskStatus.completed then some now
                else t.completed_at,
              error_message :=
                if truthyOpt msg then msg else t.error_message },
      by simp [getAssoc_setAssoc_self], rfl, rfl⟩
  · unfold cancel_task get_task_status
    rcases hterm with h | h | h <;>
      simp [hlook, h, TaskStatus.ofString]

def c3wRec : TaskData :=
  { task_id := "w3", status := "failed", repo_url := "R", pr_number := 2,
    github_token := none, created_at := "T0", updated_at := "T0",
    completed_at := none, error_message := some "boom" }

def c3wStore : Store := ⟨[("w3", .good c3wRec)], [], []⟩

/-- Witness for the amended C3 on a concrete `failed` record. -/
theorem update_status_ignores_terminality_witness :
    (∃ t', getAssoc (update_task_status "T1" c3wStore "w3"
        TaskStatus.processing none).tasks "w3"
      = some (.good t') ∧ t'.status = TaskStatus.processing.value ∧
        t'.updated_at = "T1") ∧
    cancel_task "T1" c3wStore "w3" = (c3wStore, .notCancellable) :=
  update_status_ignores_terminality "T1" c3wStore "w3"
    TaskStatus.processing none c3wRec rfl (Or.inr (Or.inl rfl))

/-! ## C6 -/

/-- C6 — the cancel endpoint: 404 when no record exists; 400 with the
store untouched when the record is terminal (`completed`, `failed`,
`cancelled`); otherwise (`pending` or `processing`) the record's status is
set to `cancelled`. -/
theorem cancel_task_semantics (now : String) (s : Store) (task_id : String) :
    (getAssoc s.tasks task_id = none →
      cancel_task now s task_id = (s, .notFound)) ∧
    (∀ t stc, getAssoc s.tasks task_id = some (.good t) →
      TaskStatus.ofString t.status = some stc →
      (stc = .completed ∨ stc = .failed ∨ stc = .cancelled) →
      cancel_task now s task_id = (s, .notCancellable)) ∧
    (∀ t stc, getAssoc s.tasks task_id = some (.good t) →
      TaskStatus.ofString t.status = some stc →
      (stc = .pending ∨ stc = .processing) →
      (cancel_task now s task_id).2 = .ok ∧
      getAssoc (cancel_task now s task_id).1.tasks task_id
        = some (.good { t with
                        status := "cancelled",
                        updated_at := now,
                        error_message :=
                          some "Task cancelled by user request" })) := by
  refine ⟨?_, ?_, ?_⟩
  · intro h
    unfold cancel_task get_task_status
    rw [h]
  · intro t stc hlook hst hterm
    unfold cancel_task get_task_status
    rcases hterm with h | h | h <;> subst h <;> simp [hlook, hst]
  · intro t stc hlook hst hnt
    have hgoal : cancel_task now s task_id
        = (update_task_status now s task_id .cancelled
            (some "Task cancelled by user request"), .ok) := by
      unfold cancel_task get_task_status
      rcases hnt with h | h <;> subst h <;> simp [hlook, hst]
    rw [hgoal]
    refine ⟨rfl, ?_⟩
    rw [update_task_status_good now s task_id .cancelled _ t hlook]
    have ht : truthyOpt (some "Task cancelled by user request") = true := by
      decide
    simp [getAssoc_setAssoc_self, ht, TaskStatus.value]

def c6Rec : TaskData :=
  { task_id := "w6", status := "processing", repo_url := "R", pr_number := 3,
    github_token := none, created_at := "T0", updated_at := "T0",
    completed_at := none, error_message := none }

def c6Store : Store := ⟨[("w6", .good c6Rec)], [], []⟩

/-- Witness for C6: a `processing` task is cancelled in place. -/
theorem cancel_task_semantics_witness :
    (cancel_task "T1" c6Store "w6").2 = .ok ∧
    getAssoc (cancel_task "T1" c6Store "w6").1.tasks "w6"
      = some (.good { c6Rec with
                      status := "cancelled",
                      updated_at := "T1",
                      error_message :=
                        some "Task cancelled by user request" }) :=
  (cancel_task_semantics "T1" c6Store "w6").2.2 c6Rec .processing rfl rfl
    (Or.inr rfl)


/-! ## C1 -/

def c1Payload : JVal :=
  .obj [("files", .arr []), ("summary", .obj [("total_files", .int 0)])]

/-- A store whose PR-analysis cache holds an entry for
(`https://github.com/a/b`, PR 7), exactly as `cache_pr_analysis_result`
would have written it. -/
def c1Store : Store :=
  ⟨[], [],
    [(get_pr_analysis_cache_key md5c "https://github.com/a/b" 7,
      .val (.obj [("result", c1Payload), ("cached_at", .str "T0"),
        ("repo_url", .str "https://github.com/a/b"), ("pr_number", .int 7)])
        3600)]⟩

/-- C1 — code bug at the failing input: the cache holds an entry for the
requested (repo, PR), and `create_task` persists the immediately-completed
task record, but then `store_task_results` raises `AttributeError` on the
plain cached dict (`results.files` / `results.model_dump()` need a
pydantic model), so the call raises instead of returning the cached
result, and no Result Record is stored.  The cache-miss half of the claim
(persist `pending`, return `None`) does hold. -/
theorem create_task_cache_hit_raises :
    check_cached_result md5c c1Store "https://github.com/a/b" 7
      = some c1Payload ∧
    (create_task md5c "T1" c1Store "t1" "https://github.com/a/b" 7 none).2
      = .error .attributeError ∧
    getAssoc (create_task md5c "T1" c1Store "t1" "https://github.com/a/b" 7
        none).1.tasks "t1"
      = some (.good
          { task_id := "t1", status := "completed",
            repo_url := "https://github.com/a/b", pr_number := 7,
            github_token := none, created_at := "T1", updated_at := "T1",
            completed_at := some "T1", error_message := none }) ∧
    (create_task md5c "T1" c1Store "t1" "https://github.com/a/b" 7
        none).1.results = [] ∧
    (create_task md5c "T1" emptyStore "t1" "https://github.com/a/b" 7
        none).2 = .ok none ∧
    getAssoc (create_task md5c "T1" emptyStore "t1" "https://github.com/a/b"
        7 none).1.tasks "t1"
      = some (.good
          { task_id := "t1", status := "pending",
            repo_url := "https://github.com/a/b", pr_number := 7,
            github_token := none, created_at := "T1", updated_at := "T1",
            completed_at := none, error_message := none }) :=
  ⟨rfl, rfl, rfl, rfl, rfl, rfl⟩

/-! ## C7 -/

theorem get_task_status_good {s : Store} {task_id : String} {t : TaskData}
    {stc : TaskStatus} (hlook : getAssoc s.tasks task_id = some (.good t))
    (hst : TaskStatus.ofString t.status = some stc) :
    get_task_status s task_id = .ok (some ⟨task_id, stc,
      calculate_progress t.status, get_status_message t.status,
      some t.created_at⟩) := by
  unfold get_task_status
  rw [hlook]
  simp [hst]

/-- On a store whose task record decodes and carries a legal status
string, `store_task_results` with a real model writes exactly the
serialized Result Record (24h TTL) and succeeds, touching nothing else. -/
theorem store_task_results_model (md5hex : String → String) (now : String)
    (s : Store) (task_id : String) (t : TaskData) (stc : TaskStatus)
    (r : AnalysisResults)
    (hlook : getAssoc s.tasks task_id = some (.good t))
    (hst : TaskStatus.ofString t.status = some stc) :
    store_task_results md5hex now s task_id (.model r)
      = ({ s with results := setAssoc s.results task_id ⟨r.dump, 86400⟩ },
          .ok ()) := by
  have hg := @get_task_status_good
    { s with results := setAssoc s.results task_id ⟨r.dump, 86400⟩ }
    task_id t stc hlook hst
  have hf : hasattrTaskStatusResponse "repo_url" = false := by decide
  simp [store_task_results, hg, hf]

/-- C7 — round-trip: for a task whose record is `completed`, a successful
`storeResults` followed by `getResults` returns a Result Record deep-equal
to the one stored; and on any store, `getResults` reports no results for a
task whose status is not `completed`, whatever the results slot holds. -/
theorem store_then_get_results_roundtrip (md5hex : String → String)
    (now : String) (s : Store) (task_id : String) (t : TaskData)
    (r : AnalysisResults)
    (hlook : getAssoc s.tasks task_id = some (.good t))
    (hst : t.status = "completed") (hv : r.Valid) :
    (store_task_results md5hex now s task_id (.model r)).2 = .ok () ∧
    get_task_results (store_task_results md5hex now s task_id (.model r)).1
        task_id
      = .ok (some { task_id := task_id,
                    status := .completed,
                    results := some r,
                    error_message := t.error_message,
                    created_at := some t.created_at,
                    completed_at := t.completed_at }) ∧
    (∀ s' t' resp, getAssoc s'.tasks task_id = some (.good t') →
      t'.status ≠ "completed" →
      get_task_results s' task_id = .ok (some resp) →
      resp.results = none) := by
  have hofs : TaskStatus.ofString t.status = some .completed := by
    rw [hst]; rfl
  have hstore := store_task_results_model md5hex now s task_id t .completed r
    hlook hofs
  refine ⟨by rw [hstore], ?_, ?_⟩
  · rw [hstore]
    unfold get_task_results
    rw [show getAssoc ({ s with
        results := setAssoc s.results task_id ⟨r.dump, 86400⟩ } :
          Store).tasks task_id = some (.good t) from hlook]
    simp [hst, TaskStatus.value, getAssoc_setAssoc_self,
      analysisResults_validate_dump r hv, TaskStatus.ofString]
  · intro s' t' resp hlook' hne hresp
    unfold get_task_results at hresp
    rw [hlook'] at hresp
    rcases hofs' : TaskStatus.ofString t'.status with _ | stc' <;>
      simp [hne, TaskStatus.value, hofs'] at hresp
    rw [← hresp]


def c7Rec : TaskData :=
  { task_id := "w7", status := "completed", repo_url := "R", pr_number := 4,
    github_token := none, created_at := "T0", updated_at := "T0",
    completed_at := some "T0", error_message := none }

def c7Store : Store := ⟨[("w7", .good c7Rec)], [], []⟩

def c7Issue : CodeIssue :=
  { type := .bug, line := 3, description := "d", suggestion := "s",
    severity := some "high" }

def c7File : FileAnalysis :=
  { name := "a.py", path := "a.py", issues := [c7Issue],
    language := some "python" }

def c7Results : AnalysisResults :=
  { files := [c7File],
    summary := ⟨1, 1, 0, 1, ["python"]⟩, metadata := none }

/-- Witness for C7 on a concrete completed task and a concrete result. -/
theorem store_then_get_results_roundtrip_witness :
    (store_task_results md5c "T1" c7Store "w7" (.model c7Results)).2
      = .ok () ∧
    get_task_results (store_task_results md5c "T1" c7Store "w7"
        (.model c7Results)).1 "w7"
      = .ok (some { task_id := "w7",
                    status := .completed,
                    results := some c7Results,
                    error_message := none,
                    created_at := some "T0",
                    completed_at := some "T0" }) :=
  ⟨(store_then_get_results_roundtrip md5c "T1" c7Store "w7" c7Rec c7Results
      rfl rfl (by decide)).1,
   (store_then_get_results_roundtrip md5c "T1" c7Store "w7" c7Rec c7Results
      rfl rfl (by decide)).2.1⟩

/-! ## C10 -/

def sumCounts (m : List (String × Nat)) : Nat := (m.map Prod.snd).sum

theorem sumCounts_incrCount (m : List (String × Nat)) (k : String) :
    sumCounts (incrCount m k) = sumCounts m + 1 := by
  induction m with
  | nil => simp [incrCount, sumCounts]
  | cons p rest ih =>
      obtain ⟨k', n⟩ := p
      by_cases h : k' = k
      · subst h
        simp [incrCount, sumCounts]
        omega
      · simp [incrCount, sumCounts, h] at ih ⊢
        omega

theorem sumCounts_countLoop (l : List TaskData) (m : List (String × Nat)) :
    sumCounts (l.foldl (fun m t => incrCount m t.status) m)
      = sumCounts m + l.length := by
  induction l generalizing m with
  | nil => simp
  | cons t rest ih =>
      simp only [List.foldl_cons, List.length_cons]
      rw [ih, sumCounts_incrCount]
      omega

theorem keys_incrCount {P : String → Prop} {m : List (String × Nat)}
    {k : String} (hm : ∀ p ∈ m, P p.1) (hk : P k) :
    ∀ p ∈ incrCount m k, P p.1 := by
  induction m with
  | nil =>
      intro p hp
      simp [incrCount] at hp
      simp [hp, hk]
  | cons q rest ih =>
      obtain ⟨k', n⟩ := q
      intro p hp
      by_cases h : k' = k
      · subst h
        simp [incrCount] at hp
        rcases hp with hp | hp
        · simp [hp, hk]
        · exact hm p (by simp [hp])
      · simp [incrCount, h] at hp
        rcases hp with hp | hp
        · exact hm p (by simp [hp])
        · exact ih (fun q hq => hm q (by simp [hq])) p hp

theorem keys_countLoop {P : String → Prop} (l : List TaskData)
    (m : List (String × Nat)) (hm : ∀ p ∈ m, P p.1)
    (hl : ∀ t ∈ l, P t.status) :
    ∀ p ∈ l.foldl (fun m t => incrCount m t.status) m, P p.1 := by
  induction l generalizing m with
  | nil => simpa using hm
  | cons t rest ih =>
      simp only [List.foldl_cons]
      exact ih _ (keys_incrCount hm (hl t (by simp)))
        (fun u hu => hl u (by simp [hu]))

/-- Every task surviving a truthy status filter carries exactly the
filtered status. -/
theorem mem_list_tasks_status {s : Store} {f : String} {lim : Nat}
    {t : TaskData} (hf : f ≠ "")
    (ht : t ∈ list_tasks s (some f) lim) : t.status = f := by
  unfold list_tasks at ht
  have h₁ : t ∈ (s.tasks.filterMap fun p => keepTask (some f) p.1 p.2) :=
    ((List.perm_insertionSort _ _).mem_iff).1 (List.mem_of_mem_take ht)
  obtain ⟨p, _, hkeep⟩ := List.mem_filterMap.1 h₁
  obtain ⟨k₀, v₀⟩ := p
  cases v₀ with
  | bad => exact absurd hkeep (by simp [keepTask])
  | good t₀ =>
      have hrw : keepTask (some f) k₀ (.good t₀)
          = if truthyOpt (some f) = true ∧ some t₀.status ≠ some f then none
            else some { t₀ with task_id := k₀ } := rfl
      rw [hrw] at hkeep
      by_cases hcond : truthyOpt (some f) = true ∧ some t₀.status ≠ some f
      · rw [if_pos hcond] at hkeep
        exact absurd hkeep (by simp)
      · rw [if_neg hcond] at hkeep
        have ht' := Option.some.inj hkeep
        have hstat : t₀.status = f := by
          by_contra hne
          exact hcond ⟨by simpa [truthyOpt] using hf, by simpa using hne⟩
        rw [← ht']
        simpa using hstat

/-- C10 — the `GET /tasks` summary is computed over the returned page
only: its counts always sum to the response's `total`, and under a truthy
status filter every key of `status_counts` is that filter value. -/
theorem list_endpoint_status_counts (s : Store) (status : Option String)
    (limit : Nat) :
    sumCounts (list_tasks_endpoint s status limit).status_counts
      = (list_tasks_endpoint s status limit).total ∧
    (∀ f, status = some f → f ≠ "" →
      ∀ p ∈ (list_tasks_endpoint s status limit).status_counts, p.1 = f) := by
  constructor
  · show sumCounts (status_counts_of (list_tasks s status limit))
      = (list_tasks s status limit).length
    unfold status_counts_of
    rw [sumCounts_countLoop]
    simp [sumCounts]
  · intro f hf hne p hp
    subst hf
    exact keys_countLoop (P := (· = f)) _ [] (by simp)
      (fun u hu => mem_list_tasks_status hne hu) p hp

def c10Rec (id : String) (st : String) (ca : String) : TaskData :=
  { task_id := id, status := st, repo_url := "R", pr_number := 1,
    github_token := none, created_at := ca, updated_at := "x",
    completed_at := none, error_message := none }

def c10Store : Store :=
  ⟨[("a", .good (c10Rec "a" "completed" "2026-01-02")),
    ("b", .good (c10Rec "b" "pending" "2026-01-03")),
    ("c", .good (c10Rec "c" "completed" "2026-01-01")),
    ("d", .bad)], [], []⟩

/-- Witness for C10: with a `completed` filter over a mixed store the
counts sum to the total and the single surviving key is `completed`. -/
theorem list_endpoint_status_counts_witness :
    sumCounts (list_tasks_endpoint c10Store (some "completed")
        20).status_counts
      = (list_tasks_endpoint c10Store (some "completed") 20).total ∧
    ("completed", 2).1 = "completed" :=
  ⟨(list_endpoint_status_counts c10Store (some "completed") 20).1,
   (list_endpoint_status_counts c10Store (some "completed") 20).2
     "completed" rfl (by decide) ("completed", 2)
     (by
       have hm : (list_tasks_endpoint c10Store (some "completed")
           20).status_counts = [("completed", 2)] := rfl
       rw [hm]
       exact List.mem_singleton.mpr rfl)⟩


/-! ## C5 -/

/-- What `update_task_status(id, FAILED, stuck_message)` does to a
decoded record. -/
def stuckUpdate (now msg : String) (t : TaskData) : TaskData :=
  { t with status := "failed", updated_at := now, error_message := some msg }

/-- The reclamation condition of the cleanup sweep: a decodable record in
`processing` created strictly before the cutoff timestamp. -/
def isStuck (cutoff : String) (v : StoredTask) : Bool :=
  match v with
  | .good t => decide (t.status = "processing" ∧
      pyStrLt t.created_at cutoff = true)
  | .bad => false

/-- A record the sweep counts as checked: one that decodes. -/
def isGoodRec : StoredTask → Bool
  | .good _ => true
  | .bad => false

/-- The effect of one sweep on one stored record. -/
def cleanupTransform (now msg cutoff : String) (v : StoredTask) :
    StoredTask :=
  match v with
  | .good t =>
      if t.status = "processing" ∧ pyStrLt t.created_at cutoff = true then
        .good (stuckUpdate now msg t)
      else .good t
  | .bad => .bad

/-- The identifying details the sweep reports for a cleaned record. -/
def stuckInfoOf (p : String × StoredTask) : StuckInfo :=
  match p.2 with
  | .good t => ⟨p.1, t.created_at, t.repo_url, t.pr_number⟩
  | .bad => ⟨p.1, "", "", 0⟩

theorem stuckMessage_ne (mah : Nat) : stuckMessage mah ≠ "" := by
  intro h
  have hlen := congrArg String.length h
  rw [stuckMessage, String.length_append, String.length_append] at hlen
  have h1 : ("Task stuck in processing for more than " : String).length = 39 :=
    rfl
  have h2 : (" hours" : String).length = 6 := rfl
  have h3 : ("" : String).length = 0 := rfl
  rw [h1, h2, h3] at hlen
  omega

theorem update_task_status_results_cache (now : String) (s : Store)
    (task_id : String) (st : TaskStatus) (msg : Option String) :
    (update_task_status now s task_id st msg).results = s.results ∧
    (update_task_status now s task_id st msg).cache = s.cache := by
  unfold update_task_status
  cases getAssoc s.tasks task_id with
  | none => exact ⟨rfl, rfl⟩
  | some w =>
      cases w with
      | bad => exact ⟨rfl, rfl⟩
      | good t => exact ⟨rfl, rfl⟩

/-- Updating a task other than the head entry leaves the head entry in
place. -/
theorem update_task_status_cons_ne (now k k' : String) (v : StoredTask)
    (rest : List (String × StoredTask)) (res : List (String × ResultSlot))
    (ca : List (String × CacheSlot)) (st : TaskStatus) (msg : Option String)
    (h : k ≠ k') :
    update_task_status now ⟨(k, v) :: rest, res, ca⟩ k' st msg
      = ⟨(k, v) ::
            (update_task_status now ⟨rest, res, ca⟩ k' st msg).tasks,
          (update_task_status now ⟨rest, res, ca⟩ k' st msg).results,
          (update_task_status now ⟨rest, res, ca⟩ k' st msg).cache⟩ := by
  cases hv' : getAssoc rest k' with
  | none => simp [update_task_status, getAssoc, h, hv']
  | some w =>
      cases w with
      | bad => simp [update_task_status, getAssoc, h, hv']
      | good t => simp [update_task_status, getAssoc, setAssoc, h, hv']

/-- The sweep never reads or writes a key absent from its snapshot: a head
entry whose key is not scanned passes through untouched and invisible. -/
theorem cleanupLoop_frame (now cutoff msg : String) (ks : List String)
    (k : String) (v : StoredTask) (rest : List (String × StoredTask))
    (res : List (String × ResultSlot)) (ca : List (String × CacheSlot))
    (hk : k ∉ ks) :
    cleanupLoop now cutoff msg ks ⟨(k, v) :: rest, res, ca⟩
      = (⟨(k, v) :: (cleanupLoop now cutoff msg ks ⟨rest, res, ca⟩).1.tasks,
           (cleanupLoop now cutoff msg ks ⟨rest, res, ca⟩).1.results,
           (cleanupLoop now cutoff msg ks ⟨rest, res, ca⟩).1.cache⟩,
          (cleanupLoop now cutoff msg ks ⟨rest, res, ca⟩).2) := by
  induction ks generalizing rest with
  | nil => rfl
  | cons k' ks ih =>
      have hk' : k ≠ k' := fun hh => hk (by simp [hh])
      have hks : k ∉ ks := fun hh => hk (by simp [hh])
      have hget : getAssoc ((k, v) :: rest) k' = getAssoc rest k' := by
        simp [getAssoc, hk']
      simp only [cleanupLoop, hget]
      cases hv' : getAssoc rest k' with
      | none => exact ih rest hks
      | some w =>
          cases w with
          | bad => exact ih rest hks
          | good t =>
              simp only []
              by_cases hc : t.status = "processing" ∧
                  pyStrLt t.created_at cutoff = true
              · rw [if_pos hc, if_pos hc]
                rw [update_task_status_cons_ne now k k' v rest res ca
                  .failed (some msg) hk']
                have hrc := update_task_status_results_cache now
                  ⟨rest, res, ca⟩ k' .failed (some msg)
                simp only [] at hrc
                rw [hrc.1, hrc.2]
                have heta : update_task_status now ⟨rest, res, ca⟩ k'
                    .failed (some msg)
                    = (⟨(update_task_status now ⟨rest, res, ca⟩ k' .failed
                          (some msg)).tasks, res, ca⟩ : Store) := by
                  cases hu : update_task_status now ⟨rest, res, ca⟩ k'
                      .failed (some msg) with
                  | mk ts rs cs =>
                      rw [hu] at hrc
                      simp only [] at hrc
                      rw [hrc.1, hrc.2]
                rw [ih _ hks, heta]
              · rw [if_neg hc, if_neg hc]
                rw [ih rest hks]

/-- Relating the stateful sweep to a pure per-record map: on a snapshot of
pairwise-distinct keys the loop rewrites exactly the stuck records, counts
the decodable ones as checked and the stuck ones as cleaned, and reports
the stuck records' details in scan order. -/
theorem cleanupLoop_spec (now cutoff msg : String) (hmsg : msg ≠ "")
    (tasks : List (String × StoredTask)) (res : List (String × ResultSlot))
    (ca : List (String × CacheSlot))
    (hnd : (tasks.map Prod.fst).Nodup) :
    cleanupLoop now cutoff msg (tasks.map Prod.fst) ⟨tasks, res, ca⟩
      = (⟨tasks.map (fun p => (p.1, cleanupTransform now msg cutoff p.2)),
           res, ca⟩,
          (tasks.filter (fun p => isGoodRec p.2)).length,
          (tasks.filter (fun p => isStuck cutoff p.2)).length,
          (tasks.filter (fun p => isStuck cutoff p.2)).map stuckInfoOf) := by
  induction tasks with
  | nil => rfl
  | cons p rest ih =>
      obtain ⟨k, v⟩ := p
      rw [List.map_cons, List.nodup_cons] at hnd
      obtain ⟨hk, hnd'⟩ := hnd
      have hget : getAssoc ((k, v) :: rest) k = some v := by
        simp [getAssoc]
      simp only [List.map_cons, cleanupLoop, hget]
      cases v with
      | bad =>
          simp only []
          rw [cleanupLoop_frame now cutoff msg _ k .bad rest res ca hk]
          rw [ih hnd']
          simp [cleanupTransform, isGoodRec, isStuck, stuckInfoOf]
      | good t =>
          simp only []
          by_cases hc : t.status = "processing" ∧
              pyStrLt t.created_at cutoff = true
          · rw [if_pos hc]
            have hlook : getAssoc (((k, .good t) :: rest :
                List (String × StoredTask))) k = some (.good t) := by
              simp [getAssoc]
            have hupd : update_task_status now ⟨(k, .good t) :: rest,
                res, ca⟩ k .failed (some msg)
                = ⟨(k, .good (stuckUpdate now msg t)) :: rest, res, ca⟩ := by
              rw [update_task_status_good now ⟨(k, .good t) :: rest, res, ca⟩
                k .failed (some msg) t hlook]
              simp [setAssoc, truthyOpt, hmsg, stuckUpdate, TaskStatus.value]
            rw [hupd]
            rw [cleanupLoop_frame now cutoff msg _ k
              (.good (stuckUpdate now msg t)) rest res ca hk]
            rw [ih hnd']
            simp [cleanupTransform, hc, isGoodRec, isStuck, stuckInfoOf]
          · rw [if_neg hc]
            rw [cleanupLoop_frame now cutoff msg _ k (.good t) rest res ca hk]
            rw [ih hnd']
            simp [cleanupTransform, hc, isGoodRec, isStuck, stuckInfoOf]

/-- C5 — the sweep force-fails exactly the `processing` records created
before the cutoff, stamping them with the non-empty synthesized stuck
message; every other record (and every other keyspace) is unchanged, and
the returned counters are the number of decodable records examined and the
number of records transitioned. -/
theorem cleanup_stuck_tasks_spec (now cutoff : String) (mah : Nat)
    (s : Store) (hnd : (s.tasks.map Prod.fst).Nodup) :
    (cleanup_stuck_tasks now cutoff mah s).1
      = ⟨s.tasks.map (fun p =>
            (p.1, cleanupTransform now (stuckMessage mah) cutoff p.2)),
          s.results, s.cache⟩ ∧
    (cleanup_stuck_tasks now cutoff mah s).2.checked_count
      = (s.tasks.filter (fun p => isGoodRec p.2)).length ∧
    (cleanup_stuck_tasks now cutoff mah s).2.cleaned_count
      = (s.tasks.filter (fun p => isStuck cutoff p.2)).length ∧
    (cleanup_stuck_tasks now cutoff mah s).2.stuck_tasks
      = (s.tasks.filter (fun p => isStuck cutoff p.2)).map stuckInfoOf ∧
    stuckMessage mah ≠ "" := by
  have h := cleanupLoop_spec now cutoff (stuckMessage mah)
    (stuckMessage_ne mah) s.tasks s.results s.cache hnd
  unfold cleanup_stuck_tasks
  rw [show (⟨s.tasks, s.results, s.cache⟩ : Store) = s from rfl] at h
  rw [h]
  exact ⟨rfl, rfl, rfl, rfl, stuckMessage_ne mah⟩

def c5Rec (id st ca : String) (pr : Int) : TaskData :=
  { task_id := id, status := st, repo_url := "R", pr_number := pr,
    github_token := none, created_at := ca, updated_at := "x",
    completed_at := none, error_message := none }

def c5Store : Store :=
  ⟨[("a", .good (c5Rec "a" "processing" "2026-01-01T00:00:00" 1)),
    ("b", .good (c5Rec "b" "processing" "2026-03-01T00:00:00" 2)),
    ("c", .good (c5Rec "c" "pending" "2026-01-01T00:00:00" 3)),
    ("d", .bad)], [], []⟩

/-- Witness for C5 on a store with one stale `processing` task, one fresh
one, one `pending` task and one undecodable record. -/
theorem cleanup_stuck_tasks_spec_witness :
    (cleanup_stuck_tasks "T9" "2026-02-01T00:00:00" 2 c5Store).1
      = ⟨c5Store.tasks.map (fun p =>
            (p.1, cleanupTransform "T9" (stuckMessage 2)
              "2026-02-01T00:00:00" p.2)),
          c5Store.results, c5Store.cache⟩ ∧
    (cleanup_stuck_tasks "T9" "2026-02-01T00:00:00" 2 c5Store).2.checked_count
      = (c5Store.tasks.filter (fun p => isGoodRec p.2)).length ∧
    (cleanup_stuck_tasks "T9" "2026-02-01T00:00:00" 2 c5Store).2.cleaned_count
      = (c5Store.tasks.filter (fun p =>
            isStuck "2026-02-01T00:00:00" p.2)).length ∧
    (cleanup_stuck_tasks "T9" "2026-02-01T00:00:00" 2 c5Store).2.stuck_tasks
      = (c5Store.tasks.filter (fun p =>
            isStuck "2026-02-01T00:00:00" p.2)).map stuckInfoOf ∧
    stuckMessage 2 ≠ "" :=
  cleanup_stuck_tasks_spec "T9" "2026-02-01T00:00:00" 2 c5Store (by decide)


/-! ## C8 -/

/-- The claimed record invariant: `completed_at` is set iff the status is
`completed`, and `error_message` is set only on `failed` / `cancelled`
records. -/
def WF (t : TaskData) : Prop :=
  (t.completed_at.isSome = true ↔ t.status = "completed") ∧
  (t.error_message.isSome = true →
    t.status = "failed" ∨ t.status = "cancelled")

instance (t : TaskData) : Decidable (WF t) := by
  unfold WF; infer_instance

/-- Every decodable record in the store satisfies `WF`. -/
def StoreWF (s : Store) : Prop :=
  ∀ p ∈ s.tasks, ∀ t, p.2 = .good t → WF t

def c8s1 : Store := (create_task md5c "T0" emptyStore "t8" "R" 1 none).1

def c8s2 : Store := update_task_status "T1" c8s1 "t8" .completed none

def c8s3 : Store := update_task_status "T2" c8s2 "t8" .failed none

def c8rec : TaskData :=
  { task_id := "t8", status := "failed", repo_url := "R", pr_number := 1,
    github_token := none, created_at := "T0", updated_at := "T2",
    completed_at := some "T1", error_message := none }

/-- C8 counterexample — the operation sequence `createTask` (pending),
`updateStatus(completed)`, `updateStatus(failed)` leaves a record whose
status is `failed` while `completed_at` is still set: the claimed
invariant fails on records reachable through unrestricted `updateStatus`
calls. -/
theorem task_fields_invariant_cex :
    getAssoc c8s3.tasks "t8" = some (.good c8rec) ∧ ¬ WF c8rec :=
  ⟨rfl, by decide⟩

theorem WFtasks_setAssoc {l : List (String × StoredTask)} {k : String}
    {v : StoredTask} (hl : ∀ p ∈ l, ∀ t, p.2 = .good t → WF t)
    (hv : ∀ t, v = .good t → WF t) :
    ∀ p ∈ setAssoc l k v, ∀ t, p.2 = .good t → WF t := by
  intro p hp t hpt
  rcases mem_setAssoc hp with h | h
  · subst h
    exact hv t hpt
  · exact hl p h t hpt

theorem WF_pending (id repo : String) (pr : Int) (tok : Option String)
    (now : String) :
    WF { task_id := id, status := TaskStatus.pending.value, repo_url := repo,
         pr_number := pr, github_token := tok, created_at := now,
         updated_at := now, completed_at := none, error_message := none } := by
  constructor
  · simp [TaskStatus.value]
  · simp

theorem WF_born_completed (id repo : String) (pr : Int) (tok : Option String)
    (now : String) :
    WF { task_id := id, status := TaskStatus.completed.value,
         repo_url := repo, pr_number := pr, github_token := tok,
         created_at := now, updated_at := now, completed_at := some now,
         error_message := none } := by
  constructor
  · simp [TaskStatus.value]
  · simp

/-- Shows that `create_task` only ever persists invariant-respecting records (a fresh
`pending` record, or a cache-born `completed` one). -/
theorem create_task_preserves_WF (md5hex : String → String) (now : String)
    (s : Store) (task_id repo_url : String) (pr : Int)
    (tok : Option String) (hwf : StoreWF s) :
    StoreWF (create_task md5hex now s task_id repo_url pr tok).1 := by
  unfold create_task
  cases check_cached_result md5hex s repo_url pr with
  | none =>
      exact WFtasks_setAssoc hwf
        (fun t ht => by
          cases ht
          exact WF_pending task_id repo_url pr tok now)
  | some cached =>
      simp only [store_task_results]
      exact WFtasks_setAssoc hwf
        (fun t ht => by
          cases ht
          exact WF_born_completed task_id repo_url pr tok now)

/-- The transition-discipline update: preserves the invariant provided a
truthy message is only supplied on a transition to `failed`/`cancelled`,
a `completed` record is only ever re-marked `completed`, and a `failed` /
`cancelled` record only moves to `failed`/`cancelled`. -/
theorem update_preserves_WF (now : String) (s : Store) (task_id : String)
    (st : TaskStatus) (msg : Option String)
    (hmsg : truthyOpt msg = true → st = .failed ∨ st = .cancelled)
    (hterm : ∀ t, getAssoc s.tasks task_id = some (.good t) →
      t.status = "completed" → st = .completed)
    (hback : ∀ t, getAssoc s.tasks task_id = some (.good t) →
      (t.status = "failed" ∨ t.status = "cancelled") →
      st = .failed ∨ st = .cancelled)
    (hwf : StoreWF s) :
    StoreWF (update_task_status now s task_id st msg) := by
  cases hlook : getAssoc s.tasks task_id with
  | none =>
      unfold update_task_status
      rw [hlook]
      exact hwf
  | some w =>
      cases w with
      | bad =>
          unfold update_task_status
          rw [hlook]
          exact hwf
      | good t =>
          rw [update_task_status_good now s task_id st msg t hlook]
          apply WFtasks_setAssoc hwf
          intro t' ht'
          have hWFt : WF t := hwf (task_id, .good t) (mem_of_getAssoc hlook)
            t rfl
          injection ht' with ht'
          rw [← ht']
          constructor
          · by_cases hcs : st = TaskStatus.completed
            · simp [hcs, TaskStatus.value]
            · have hnc : ¬ t.status = "completed" :=
                fun h => hcs (hterm t hlook h)
              have hvne : st.value ≠ "completed" := by
                cases st <;> simp_all [TaskStatus.value]
              simp only [hcs, if_false, if_neg hcs]
              constructor
              · intro hsome
                exact absurd (hWFt.1.1 hsome) hnc
              · intro hval
                exact absurd hval hvne
          · by_cases hm : truthyOpt msg = true
            · rcases hmsg hm with h | h <;>
                simp [hm, h, TaskStatus.value]
            · simp only [hm, if_false, if_neg (by simp [hm] : ¬ (truthyOpt msg = true))]
              intro hsome
              rcases hback t hlook (hWFt.2 hsome) with h | h
              · subst h
                exact Or.inl rfl
              · subst h
                exact Or.inr rfl

theorem get_task_status_ok_some {s : Store} {task_id : String}
    {resp : TaskStatusResponse}
    (hg : get_task_status s task_id = .ok (some resp)) :
    ∃ t, getAssoc s.tasks task_id = some (.good t) ∧
      TaskStatus.ofString t.status = some resp.status := by
  unfold get_task_status at hg
  cases hlook : getAssoc s.tasks task_id with
  | none =>
      rw [hlook] at hg
      simp at hg
  | some w =>
      rw [hlook] at hg
      cases w with
      | bad => simp at hg
      | good t =>
          simp only [] at hg
          cases hofs : TaskStatus.ofString t.status with
          | none => rw [hofs] at hg; simp at hg
          | some stc =>
              rw [hofs] at hg
              simp only [] at hg
              injection hg with h1
              injection h1 with h2
              refine ⟨t, rfl, ?_⟩
              rw [hofs, ← h2]

/-- Shows that `cancel_task` preserves the invariant: it refuses terminal records and
otherwise performs a disciplined `cancelled` transition. -/
theorem cancel_preserves_WF (now : String) (s : Store) (task_id : String)
    (hwf : StoreWF s) : StoreWF (cancel_task now s task_id).1 := by
  unfold cancel_task
  cases hg : get_task_status s task_id with
  | error e => exact hwf
  | ok o =>
      cases o with
      | none => exact hwf
      | some resp =>
          by_cases hterm : resp.status = TaskStatus.completed ∨
              resp.status = TaskStatus.failed ∨
              resp.status = TaskStatus.cancelled
          · simp only [if_pos hterm]
            exact hwf
          · simp only [if_neg hterm]
            obtain ⟨t, hlook, hofs⟩ := get_task_status_ok_some hg
            apply update_preserves_WF now s task_id .cancelled _
              (fun _ => Or.inr rfl) ?_ (fun _ _ _ => Or.inr rfl) hwf
            intro t' hl' hcomp
            rw [hlook] at hl'
            injection hl' with hl'
            injection hl' with hl'
            rw [← hl'] at hcomp
            rw [hcomp] at hofs
            have : resp.status = TaskStatus.completed := by
              have h0 : TaskStatus.ofString "completed"
                  = some TaskStatus.completed := rfl
              rw [h0] at hofs
              exact (Option.some.inj hofs).symm
            exact absurd (Or.inl this) hterm

/-- The cleanup sweep preserves the invariant: every write it performs is
a disciplined `processing → failed` transition with a truthy message. -/
theorem cleanupLoop_preserves_WF (now cutoff msg : String)
    (ks : List String) (s : Store) (hwf : StoreWF s) :
    StoreWF (cleanupLoop now cutoff msg ks s).1 := by
  induction ks generalizing s with
  | nil => exact hwf
  | cons k ks ih =>
      unfold cleanupLoop
      cases hlook : getAssoc s.tasks k with
      | none => exact ih s hwf
      | some w =>
          cases w with
          | bad => exact ih s hwf
          | good t =>
              simp only []
              by_cases hc : t.status = "processing" ∧
                  pyStrLt t.created_at cutoff = true
              · rw [if_pos hc]
                refine ih _ (update_preserves_WF now s k .failed (some msg)
                  (fun _ => Or.inl rfl) ?_ ?_ hwf)
                · intro t' hl' hcomp
                  rw [hlook] at hl'
                  injection hl' with hl'
                  injection hl' with hl'
                  rw [← hl'] at hcomp
                  rw [hc.1] at hcomp
                  exact absurd hcomp (by decide)
                · intro t' hl' hfc
                  rw [hlook] at hl'
                  injection hl' with hl'
                  injection hl' with hl'
                  rw [← hl'] at hfc
                  rw [hc.1] at hfc
                  rcases hfc with h | h <;> exact absurd h (by decide)
              · rw [if_neg hc]
                exact ih s hwf

theorem cleanup_preserves_WF (now cutoff : String) (mah : Nat) (s : Store)
    (hwf : StoreWF s) : StoreWF (cleanup_stuck_tasks now cutoff mah s).1 := by
  unfold cleanup_stuck_tasks
  exact cleanupLoop_preserves_WF now cutoff (stuckMessage mah) _ s hwf

theorem get_task_data_some {s : Store} {task_id : String} {t : TaskData}
    (h : get_task_data s task_id = some t) :
    getAssoc s.tasks task_id = some (.good t) := by
  unfold get_task_data at h
  cases hlook : getAssoc s.tasks task_id with
  | none => rw [hlook] at h; simp at h
  | some w =>
      cases w with
      | bad => rw [hlook] at h; simp at h
      | good t' =>
          rw [hlook] at h
          simp at h
          rw [h]

/-- Shows that `create_task` writes exactly one task record, at its own task id. -/
theorem create_task_tasks_eq (md5hex : String → String) (now : String)
    (s : Store) (task_id repo_url : String) (pr : Int)
    (tok : Option String) :
    ∃ rec : TaskData, (create_task md5hex now s task_id repo_url pr tok).1.tasks
      = setAssoc s.tasks task_id (.good rec) := by
  unfold create_task
  cases check_cached_result md5hex s repo_url pr with
  | none => exact ⟨_, rfl⟩
  | some cached =>
      simp only [store_task_results]
      exact ⟨_, rfl⟩

/-- Shows that `retrigger_task` preserves the invariant: the clone is a fresh record
and the back-referencing cancellation is disciplined (the guard rules out
cancelling a `completed` original). -/
theorem retrigger_preserves_WF (md5hex : String → String)
    (now new_task_id : String) (s : Store) (task_id : String)
    (hfresh : new_task_id ≠ task_id) (hwf : StoreWF s) :
    StoreWF (retrigger_task md5hex now new_task_id s task_id).1 := by
  unfold retrigger_task
  cases hgd : get_task_data s task_id with
  | none => exact hwf
  | some orig =>
      by_cases hcomp : orig.status = "completed"
      · simp only [if_pos hcomp]
        exact hwf
      · simp only [if_neg hcomp]
        cases hcr : create_task md5hex now s new_task_id orig.repo_url
            orig.pr_number orig.github_token with
        | mk s₁ r =>
            have hwf₁ : StoreWF s₁ := by
              have h := create_task_preserves_WF md5hex now s new_task_id
                orig.repo_url orig.pr_number orig.github_token hwf
              rw [hcr] at h
              exact h
            cases r with
            | error e => exact hwf₁
            | ok o =>
                apply update_preserves_WF now s₁ task_id .cancelled _
                  (fun _ => Or.inr rfl) ?_ (fun _ _ _ => Or.inr rfl) hwf₁
                intro t' hl' hcomp'
                obtain ⟨rec, hrec⟩ := create_task_tasks_eq md5hex now s
                  new_task_id orig.repo_url orig.pr_number orig.github_token
                rw [hcr] at hrec
                simp only [] at hrec
                rw [hrec] at hl'
                rw [getAssoc_setAssoc_ne s.tasks new_task_id task_id
                  (.good rec) (Ne.symm hfresh)] at hl'
                rw [get_task_data_some hgd] at hl'
                injection hl' with hl'
                injection hl' with hl'
                rw [← hl'] at hcomp'
                exact absurd hcomp' hcomp

/-- One mutation of the shared store by the Task Store operations, with
`update_task_status` restricted to the documented transition discipline
and retrigger assumed to draw a fresh UUID. -/
inductive Step (md5hex : String → String) : Store → Store → Prop where
  | create (now task_id repo_url : String) (pr : Int) (tok : Option String)
      (s : Store) :
      Step md5hex s (create_task md5hex now s task_id repo_url pr tok).1
  | update (now task_id : String) (st : TaskStatus) (msg : Option String)
      (s : Store)
      (hmsg : truthyOpt msg = true → st = .failed ∨ st = .cancelled)
      (hterm : ∀ t, getAssoc s.tasks task_id = some (.good t) →
        t.status = "completed" → st = .completed)
      (hback : ∀ t, getAssoc s.tasks task_id = some (.good t) →
        (t.status = "failed" ∨ t.status = "cancelled") →
        st = .failed ∨ st = .cancelled) :
      Step md5hex s (update_task_status now s task_id st msg)
  | cancel (now task_id : String) (s : Store) :
      Step md5hex s (cancel_task now s task_id).1
  | cleanup (now cutoff : String) (mah : Nat) (s : Store) :
      Step md5hex s (cleanup_stuck_tasks now cutoff mah s).1
  | retrigger (now new_task_id task_id : String) (s : Store)
      (hfresh : new_task_id ≠ task_id) :
      Step md5hex s (retrigger_task md5hex now new_task_id s task_id).1

/-- Reachability through any sequence of such operations. -/
inductive Reaches (md5hex : String → String) : Store → Store → Prop where
  | refl (s : Store) : Reaches md5hex s s
  | tail {s₁ s₂ s₃ : Store} : Reaches md5hex s₁ s₂ → Step md5hex s₂ s₃ →
      Reaches md5hex s₁ s₃

/-- C8 amended — for every store reachable through `createTask`, `cancel`,
`cleanupStuck`, `retrigger` (with fresh ids) and `updateStatus` calls
respecting the documented transition discipline (truthy error messages
only with `failed`/`cancelled` targets, no transition out of `completed`
except to `completed`, out of `failed`/`cancelled` only to
`failed`/`cancelled`), every decodable task record has `completed_at` set
iff its status is `completed` and `error_message` set only when `failed`
or `cancelled`. -/
theorem task_fields_invariant_reachable (md5hex : String → String)
    (s s' : Store) (hwf : StoreWF s) (hr : Reaches md5hex s s') :
    StoreWF s' := by
  induction hr with
  | refl => exact hwf
  | tail hr hstep ih =>
      cases hstep with
      | create now task_id repo_url pr tok =>
          exact create_task_preserves_WF _ _ _ _ _ _ _ ih
      | update now task_id st msg s2 hmsg hterm hback =>
          exact update_preserves_WF _ _ _ _ _ hmsg hterm hback ih
      | cancel now task_id => exact cancel_preserves_WF _ _ _ ih
      | cleanup now cutoff mah => exact cleanup_preserves_WF _ _ _ _ ih
      | retrigger now new_task_id task_id s2 hfresh =>
          exact retrigger_preserves_WF _ _ _ _ _ hfresh ih

/-- Witness for the amended C8: a two-step trace (create pending, worker
marks processing) from the empty store satisfies the invariant. -/
theorem task_fields_invariant_reachable_witness :
    StoreWF (update_task_status "T1"
      (create_task md5c "T0" emptyStore "t8" "R" 1 none).1 "t8"
      .processing none) :=
  task_fields_invariant_reachable md5c emptyStore _
    (fun p hp => absurd hp (List.not_mem_nil p))
    (Reaches.tail
      (Reaches.tail (Reaches.refl emptyStore)
        (Step.create "T0" "t8" "R" 1 none emptyStore))
      (Step.update "T1" "t8" .processing none _
        (by simp [truthyOpt])
        (fun t ht hc => by
          have : t.status = "pending" := by
            have h := ht
            rw [show (create_task md5c "T0" emptyStore "t8" "R" 1
                none).1.tasks = [("t8", .good
                  { task_id := "t8", status := "pending", repo_url := "R",
                    pr_number := 1, github_token := none,
                    created_at := "T0", updated_at := "T0",
                    completed_at := none, error_message := none })]
              from rfl] at h
            simp [getAssoc] at h
            rw [← h]
          rw [this] at hc
          exact absurd hc (by decide))
        (fun t ht hfc => by
          have : t.status = "pending" := by
            have h := ht
            rw [show (create_task md5c "T0" emptyStore "t8" "R" 1
                none).1.tasks = [("t8", .good
                  { task_id := "t8", status := "pending", repo_url := "R",
                    pr_number := 1, github_token := none,
                    created_at := "T0", updated_at := "T0",
                    completed_at := none, error_message := none })]
              from rfl] at h
            simp [getAssoc] at h
            rw [← h]
          rw [this] at hfc
          rcases hfc with h | h <;> exact absurd h (by decide))))


end PRAgent
